import Mathlib

/-!
Verification development for the Dynamic-Document-Translator repository.

The repository is a Next.js application whose only server logic is the
`/api/document-parser` route (`src/app/api/document-parser/route.ts`): it
accepts an uploaded PDF, calls the Gemini model once through the Vercel AI
SDK `generateObject` with the zod schema `documentParserSchema`
(`src/lib/schema/document-parser.ts`), enhances the returned metadata, and
answers with a JSON response.

We model JSON values shallowly (numbers as rationals, objects as
association lists with JavaScript spread/override semantics), translate the
zod schema into a decidable conformance function, and embed the `POST`,
`GET`, `PUT` and `DELETE` handlers as pure functions of an explicit request
environment.  The environment carries the parts of the outside world the
route reads: whether the API key is configured, the uploaded file (if any),
the raw reply of the external model endpoint, and the current timestamp.
The embedded `POST` also counts how many calls to the external model
endpoint the run performs.
-/

set_option autoImplicit false

namespace DDT

/-- A JSON value as produced by the model endpoint and by the route's
response bodies.  Numbers are modelled as rationals (JavaScript numbers in
this code path are sizes, counts and confidence scores). -/
inductive Json where
  | null
  | bool (b : Bool)
  | num (q : ℚ)
  | str (s : String)
  | arr (elems : List Json)
  | obj (fields : List (String × Json))

/-- First-match lookup in an association list, the lookup semantics of a
JavaScript object whose keys are unique. -/
def lookupKey : List (String × Json) → String → Option Json
  | [], _ => none
  | (k', v') :: rest, k => if k' = k then some v' else lookupKey rest k

/-- Override a key in an association list: replace the first occurrence in
place, or append when absent.  This is the effect of a JavaScript object
spread `\x7b...o, k: v\x7d` on the key `k`. -/
def setKey : List (String × Json) → String → Json → List (String × Json)
  | [], k, v => [(k, v)]
  | (k', v') :: rest, k, v =>
      if k' = k then (k, v) :: rest else (k', v') :: setKey rest k v

/-- Key access on a JSON value: `j[k]` for an object, `undefined` (here
`none`) otherwise. -/
def Json.getKey : Json → String → Option Json
  | .obj fields, k => lookupKey fields k
  | _, _ => none

/-- Whether a JSON value is an object (zod `z.object` rejects anything
else). -/
def Json.isObj : Json → Bool
  | .obj _ => true
  | _ => false

/-- A required `z.string()` field. -/
def fieldStr : Option Json → Bool
  | some (.str _) => true
  | _ => false

/-- A required `z.number()` field. -/
def fieldNum : Option Json → Bool
  | some (.num _) => true
  | _ => false

/-- A required `z.boolean()` field. -/
def fieldBool : Option Json → Bool
  | some (.bool _) => true
  | _ => false

/-- An optional `z.number()` field: absent, or present and a number. -/
def fieldOptNum : Option Json → Bool
  | none => true
  | some (.num _) => true
  | _ => false

/-- An optional `z.string()` field. -/
def fieldOptStr : Option Json → Bool
  | none => true
  | some (.str _) => true
  | _ => false

/-- A required `z.enum(vals)` field. -/
def fieldEnum (vals : List String) : Option Json → Bool
  | some (.str s) => vals.contains s
  | _ => false

/-- An optional `z.enum(vals)` field. -/
def fieldOptEnum (vals : List String) : Option Json → Bool
  | none => true
  | some (.str s) => vals.contains s
  | _ => false

/-- A required `z.array(...)` field whose elements must satisfy `p`. -/
def fieldArrOf (p : Json → Bool) : Option Json → Bool
  | some (.arr xs) => xs.all p
  | _ => false

/-- An optional `z.array(...)` field. -/
def fieldOptArrOf (p : Json → Bool) : Option Json → Bool
  | none => true
  | some (.arr xs) => xs.all p
  | _ => false

/-- A required nested `z.object(...)` field validated by `p`. -/
def fieldObj (p : Json → Bool) : Option Json → Bool
  | some v => p v
  | none => false

/-- An optional nested `z.object(...)` field validated by `p`. -/
def fieldOptObj (p : Json → Bool) : Option Json → Bool
  | some v => p v
  | none => true

/-- A required `z.number().min(lo).max(hi)` field. -/
def fieldNumInRange (lo hi : ℚ) : Option Json → Bool
  | some (.num x) => decide (lo ≤ x) && decide (x ≤ hi)
  | _ => false

/-- A JSON array element that must be a number (`z.array(z.number())`). -/
def elemNum : Json → Bool
  | .num _ => true
  | _ => false

/-- A JSON array element that must be a string (`z.array(z.string())`). -/
def elemStr : Json → Bool
  | .str _ => true
  | _ => false

/-- The `position` object of a section in `documentParserSchema`. -/
def conformsPosition (j : Json) : Bool :=
  j.isObj
  && fieldNum (j.getKey "page")
  && fieldNum (j.getKey "order")

/-- One element of `structure.sections` in `documentParserSchema`. -/
def conformsSection (j : Json) : Bool :=
  j.isObj
  && fieldEnum ["heading", "paragraph", "list", "table", "image", "footer",
      "header", "caption"] (j.getKey "type")
  && fieldOptNum (j.getKey "level")
  && fieldStr (j.getKey "content")
  && fieldObj conformsPosition (j.getKey "position")

/-- One element of `structure.tableOfContents` in `documentParserSchema`. -/
def conformsTocEntry (j : Json) : Bool :=
  j.isObj
  && fieldStr (j.getKey "title")
  && fieldNum (j.getKey "level")
  && fieldOptNum (j.getKey "page")

/-- One element of `structure.footnotes` in `documentParserSchema`. -/
def conformsFootnote (j : Json) : Bool :=
  j.isObj
  && fieldNum (j.getKey "number")
  && fieldStr (j.getKey "content")
  && fieldNum (j.getKey "page")

/-- The `structure` object of `documentParserSchema`. -/
def conformsStructure (j : Json) : Bool :=
  j.isObj
  && fieldArrOf conformsSection (j.getKey "sections")
  && fieldArrOf elemNum (j.getKey "pageBreaks")
  && fieldNum (j.getKey "totalPages")
  && fieldOptArrOf conformsTocEntry (j.getKey "tableOfContents")
  && fieldOptArrOf conformsFootnote (j.getKey "footnotes")

/-- One element of `formatting.fonts` in `documentParserSchema`. -/
def conformsFont (j : Json) : Bool :=
  j.isObj
  && fieldStr (j.getKey "name")
  && fieldNum (j.getKey "size")
  && fieldBool (j.getKey "isUsedForHeadings")
  && fieldBool (j.getKey "isUsedForBody")
  && fieldOptEnum ["normal", "bold", "light"] (j.getKey "weight")
  && fieldOptEnum ["normal", "italic", "oblique"] (j.getKey "style")

/-- The `formatting.styles` object of `documentParserSchema`. -/
def conformsStyles (j : Json) : Bool :=
  j.isObj
  && fieldBool (j.getKey "hasBold")
  && fieldBool (j.getKey "hasItalic")
  && fieldBool (j.getKey "hasUnderline")
  && fieldBool (j.getKey "hasStrikethrough")
  && fieldBool (j.getKey "hasHighlight")
  && fieldBool (j.getKey "hasSuperscript")
  && fieldBool (j.getKey "hasSubscript")

/-- The optional `formatting.layout.margins` object of
`documentParserSchema`. -/
def conformsMargins (j : Json) : Bool :=
  j.isObj
  && fieldOptNum (j.getKey "top")
  && fieldOptNum (j.getKey "bottom")
  && fieldOptNum (j.getKey "left")
  && fieldOptNum (j.getKey "right")

/-- The `formatting.layout` object of `documentParserSchema`. -/
def conformsLayout (j : Json) : Bool :=
  j.isObj
  && fieldNum (j.getKey "columns")
  && fieldBool (j.getKey "hasHeaders")
  && fieldBool (j.getKey "hasFooters")
  && fieldBool (j.getKey "hasWatermarks")
  && fieldEnum ["portrait", "landscape"] (j.getKey "orientation")
  && fieldOptObj conformsMargins (j.getKey "margins")

/-- The `formatting` object of `documentParserSchema`. -/
def conformsFormatting (j : Json) : Bool :=
  j.isObj
  && fieldArrOf conformsFont (j.getKey "fonts")
  && fieldObj conformsStyles (j.getKey "styles")
  && fieldObj conformsLayout (j.getKey "layout")

/-- The `metadata` object of `documentParserSchema`, including the enum
constraint on `textQuality` and the `min(0).max(1)` range constraint on
`extractionConfidence`. -/
def conformsMetadata (j : Json) : Bool :=
  j.isObj
  && fieldStr (j.getKey "filename")
  && fieldNum (j.getKey "fileSize")
  && fieldStr (j.getKey "extractedAt")
  && fieldNum (j.getKey "pageCount")
  && fieldOptStr (j.getKey "language")
  && fieldOptStr (j.getKey "title")
  && fieldOptStr (j.getKey "author")
  && fieldOptStr (j.getKey "subject")
  && fieldOptArrOf elemStr (j.getKey "keywords")
  && fieldOptStr (j.getKey "creationDate")
  && fieldOptStr (j.getKey "lastModified")
  && fieldOptStr (j.getKey "pdfVersion")
  && fieldOptStr (j.getKey "producer")
  && fieldOptNum (j.getKey "wordCount")
  && fieldOptNum (j.getKey "characterCount")
  && fieldBool (j.getKey "hasImages")
  && fieldBool (j.getKey "hasCharts")
  && fieldBool (j.getKey "hasTables")
  && fieldBool (j.getKey "hasFormFields")
  && fieldBool (j.getKey "isScanned")
  && fieldEnum ["excellent", "good", "fair", "poor"] (j.getKey "textQuality")
  && fieldNumInRange 0 1 (j.getKey "extractionConfidence")

/-- Conformance to `documentParserSchema` from
`src/lib/schema/document-parser.ts`: a faithful translation of the zod
schema into a decidable check on JSON values. -/
def documentParserConforms (j : Json) : Bool :=
  j.isObj
  && fieldStr (j.getKey "extractedText")
  && fieldObj conformsStructure (j.getKey "structure")
  && fieldObj conformsFormatting (j.getKey "formatting")
  && fieldObj conformsMetadata (j.getKey "metadata")

/-- JavaScript `String.prototype.toLowerCase`, character by character (the
strings involved here are ASCII). -/
def lowerString (s : String) : String := ⟨s.data.map Char.toLower⟩

/-- JavaScript `String.prototype.endsWith`. -/
def strEndsWith (s suffix : String) : Bool :=
  List.isSuffixOf suffix.data s.data

/-- Occurrence of a character pattern inside a character list. -/
def subOccurs (pat : List Char) : List Char → Bool
  | [] => List.isPrefixOf pat []
  | c :: rest => List.isPrefixOf pat (c :: rest) || subOccurs pat rest

/-- Substring test, JavaScript `String.prototype.includes`. -/
def containsSub (s pat : String) : Bool := subOccurs pat.data s.data

/-- `MAX_FILE_SIZE` from `route.ts`: 10MB. -/
def MAX_FILE_SIZE : ℕ := 10 * 1024 * 1024

/-- `ALLOWED_MIME_TYPES` from `route.ts`. -/
def ALLOWED_MIME_TYPES : List String := ["application/pdf"]

/-- `SUPPORTED_FILE_EXTENSIONS` from `route.ts`. -/
def SUPPORTED_FILE_EXTENSIONS : List String := [".pdf"]

/-- The fields of the uploaded `File` object the route reads. -/
structure UploadedFile where
  name : String
  size : ℕ
  type : String

/-- The result type of `validateFile` in `route.ts`. -/
structure ValidationResult where
  isValid : Bool
  error : Option String

/-- `validateFile` from `route.ts`: `fileValidationSchema.parse` checks the
name (min length 1), size (at most `MAX_FILE_SIZE`) and MIME type (member
of `ALLOWED_MIME_TYPES`) in declaration order and reports the first failing
field's message; on success an additional lowercased-extension check
runs. -/
def validateFile (file : UploadedFile) : ValidationResult :=
  if file.name.length < 1 then
    ⟨false, some "Filename is required"⟩
  else if MAX_FILE_SIZE < file.size then
    ⟨false, some "File size must be less than 10MB"⟩
  else if ¬ (ALLOWED_MIME_TYPES.contains file.type) then
    ⟨false, some "Only PDF files are supported"⟩
  else if ¬ (SUPPORTED_FILE_EXTENSIONS.any
      (fun ext => strEndsWith (lowerString file.name) ext)) then
    ⟨false, some "File must have a .pdf extension"⟩
  else
    ⟨true, none⟩

/-- An HTTP response of the route: a status code and a JSON body. -/
structure HttpResponse where
  status : ℕ
  body : Json

/-- `createErrorResponse` from `route.ts` (its default status argument is
400, written explicitly at every call site here). -/
def createErrorResponse (message : String) (status : ℕ) : HttpResponse :=
  ⟨status, .obj [("success", .bool false), ("error", .str message)]⟩

/-- `createSuccessResponse` from `route.ts`. -/
def createSuccessResponse (data : Json) : HttpResponse :=
  ⟨200, .obj [("success", .bool true), ("data", data)]⟩

/-- A JavaScript exception as observed by the route's catch block: an
`Error` with a `name` and a `message`, or a thrown non-`Error` value. -/
inductive Thrown where
  | jsError (name message : String)
  | nonError

/-- The parts of the outside world one `POST` invocation reads: whether
`process.env.GOOGLE_GENERATIVE_AI_API_KEY` is set, the `pdf` entry of the
form data, the outcome of the single network exchange with the external
model endpoint (its raw JSON reply, or a thrown transport error), and the
current time as an ISO string. -/
structure RequestEnv where
  apiKeyConfigured : Bool
  file : Option UploadedFile
  modelReply : Except Thrown Json
  now : String

/-- Modelled contract of the Vercel AI SDK `generateObject` call in
`route.ts` (library code, not part of this repository): it forwards the
prompt to the external model endpoint and validates the reply against the
zod schema passed as `schema:` — here `documentParserSchema` — resolving
with the validated object exactly when the reply conforms, and otherwise
throwing `AI_NoObjectGeneratedError`; transport errors propagate. -/
def generateObject (reply : Except Thrown Json) : Except Thrown Json :=
  match reply with
  | .error e => .error e
  | .ok j =>
      if documentParserConforms j then .ok j
      else .error (.jsError "AI_NoObjectGeneratedError"
        "response did not match schema")

/-- The enhancement step of `route.ts`: the JavaScript spread
`\x7b ...result.object, metadata: \x7b ...result.object.metadata,
filename, fileSize, extractedAt \x7d \x7d`. -/
def enhance (obj : Json) (filename : String) (fileSize : ℕ) (now : String) :
    Json :=
  match obj with
  | .obj fields =>
      let mdFields : List (String × Json) :=
        match lookupKey fields "metadata" with
        | some (.obj m) => m
        | _ => []
      let newMd :=
        setKey (setKey (setKey mdFields "filename" (.str filename))
          "fileSize" (.num (fileSize : ℚ))) "extractedAt" (.str now)
      .obj (setKey fields "metadata" (.obj newMd))
  | j => j

/-- Reading `enhancedResult.extractedText` as the route does: the string
under the `extractedText` key, and the empty string when the key is absent
or not a string (the JavaScript falsy check then fires). -/
def extractedTextOf (j : Json) : String :=
  match j.getKey "extractedText" with
  | some (.str s) => s
  | _ => ""

/-- The catch block of `POST` in `route.ts`: `AI_NoObjectGeneratedError`
maps to 422, then the error message is tested for the substrings
`API key`, `quota`/`rate limit`, `timeout` and `token`, and anything else
becomes a 500. -/
def handleCaught : Thrown → HttpResponse
  | .nonError =>
      createErrorResponse
        "An unexpected error occurred while processing the document" 500
  | .jsError n m =>
      if n = "AI_NoObjectGeneratedError" then
        createErrorResponse
          "Failed to parse document structure. The document may be too complex or corrupted."
          422
      else if containsSub m "API key" then
        createErrorResponse "API authentication failed" 401
      else if containsSub m "quota" || containsSub m "rate limit" then
        createErrorResponse
          "Service temporarily unavailable. Please try again later." 503
      else if containsSub m "timeout" then
        createErrorResponse
          "Document processing timed out. Please try with a smaller file." 408
      else if containsSub m "token" then
        createErrorResponse
          "Document is too large to process. Please try with a smaller file."
          413
      else
        createErrorResponse ("Processing failed: " ++ m) 500

/-- The outcome of one `POST` invocation: the HTTP response, together with
the number of calls the run made to the external model endpoint. -/
structure PostResult where
  response : HttpResponse
  modelCalls : ℕ

/-- The `POST` handler of `src/app/api/document-parser/route.ts`:
API-key guard, file presence check, `validateFile`, a single
`generateObject` call, metadata enhancement, the meaningful-text check
(`!text || text.length < 10` collapses to `text.length < 10`), and the
success response; thrown errors go through the catch block. -/
def POST (env : RequestEnv) : PostResult :=
  if env.apiKeyConfigured = false then
    ⟨createErrorResponse "Google Generative AI API key not configured" 500, 0⟩
  else
    match env.file with
    | none =>
        ⟨createErrorResponse "No PDF file provided. Please upload a PDF file." 400, 0⟩
    | some file =>
        let validation := validateFile file
        if validation.isValid = false then
          ⟨createErrorResponse (validation.error.getD "Unknown validation error") 400, 0⟩
        else
          match generateObject env.modelReply with
          | .error e => ⟨handleCaught e, 1⟩
          | .ok obj =>
              let enhancedResult := enhance obj file.name file.size env.now
              if (extractedTextOf enhancedResult).length < 10 then
                ⟨createErrorResponse
                  "Could not extract meaningful text from the PDF. The document may be empty, corrupted, or contain only images."
                  422, 1⟩
              else
                ⟨createSuccessResponse enhancedResult, 1⟩

/-- The `GET` handler of `route.ts`. -/
def GET : HttpResponse :=
  ⟨405, .obj [("success", .bool false),
    ("error", .str "Method not allowed. Use POST to upload a PDF file.")]⟩

/-- The `PUT` handler of `route.ts`. -/
def PUT : HttpResponse :=
  ⟨405, .obj [("success", .bool false),
    ("error", .str "Method not allowed. Use POST to upload a PDF file.")]⟩

/-- The `DELETE` handler of `route.ts`. -/
def DELETE : HttpResponse :=
  ⟨405, .obj [("success", .bool false),
    ("error", .str "Method not allowed. Use POST to upload a PDF file.")]⟩

/-- A concrete `metadata` object conforming to the schema, as a model reply
could contain. -/
def sampleMetadata : Json := .obj [
  ("filename", .str "doc.pdf"),
  ("fileSize", .num 1000),
  ("extractedAt", .str "2026-01-01T00:00:00.000Z"),
  ("pageCount", .num 2),
  ("language", .str "en"),
  ("hasImages", .bool false),
  ("hasCharts", .bool false),
  ("hasTables", .bool false),
  ("hasFormFields", .bool false),
  ("isScanned", .bool false),
  ("textQuality", .str "good"),
  ("extractionConfidence", .num (mkRat 9 10))]

/-- A concrete `structure` object conforming to the schema. -/
def sampleStructure : Json := .obj [
  ("sections", .arr [.obj [
    ("type", .str "paragraph"),
    ("content", .str "Hello world."),
    ("position", .obj [("page", .num 1), ("order", .num 1)])]]),
  ("pageBreaks", .arr [.num 1]),
  ("totalPages", .num 2)]

/-- A concrete `formatting` object conforming to the schema. -/
def sampleFormatting : Json := .obj [
  ("fonts", .arr [.obj [
    ("name", .str "Arial"),
    ("size", .num 12),
    ("isUsedForHeadings", .bool false),
    ("isUsedForBody", .bool true)]]),
  ("styles", .obj [
    ("hasBold", .bool false),
    ("hasItalic", .bool false),
    ("hasUnderline", .bool false),
    ("hasStrikethrough", .bool false),
    ("hasHighlight", .bool false),
    ("hasSuperscript", .bool false),
    ("hasSubscript", .bool false)]),
  ("layout", .obj [
    ("columns", .num 1),
    ("hasHeaders", .bool false),
    ("hasFooters", .bool false),
    ("hasWatermarks", .bool false),
    ("orientation", .str "portrait")])]

/-- A model reply with the given extracted text and the sample structure,
formatting and metadata. -/
def sampleDocWith (t : String) : Json := .obj [
  ("extractedText", .str t),
  ("structure", sampleStructure),
  ("formatting", sampleFormatting),
  ("metadata", sampleMetadata)]

/-- A conforming model reply whose extracted text is long enough. -/
def sampleDoc : Json := sampleDocWith "This is the extracted document text."

/-- A conforming model reply whose extracted text is shorter than 10
characters. -/
def sampleDocShort : Json := sampleDocWith "short"

/-- A metadata object violating the range constraint on
`extractionConfidence` (value 2, above the maximum 1). -/
def sampleMetadataBad : Json := .obj [
  ("filename", .str "doc.pdf"),
  ("fileSize", .num 1000),
  ("extractedAt", .str "2026-01-01T00:00:00.000Z"),
  ("pageCount", .num 2),
  ("hasImages", .bool false),
  ("hasCharts", .bool false),
  ("hasTables", .bool false),
  ("hasFormFields", .bool false),
  ("isScanned", .bool false),
  ("textQuality", .str "good"),
  ("extractionConfidence", .num 2)]

/-- A model reply that fails schema validation only because
`extractionConfidence` is out of range: one field away from conforming. -/
def sampleDocBad : Json := .obj [
  ("extractedText", .str "This is the extracted document text."),
  ("structure", sampleStructure),
  ("formatting", sampleFormatting),
  ("metadata", sampleMetadataBad)]

/-- A concrete valid uploaded PDF file. -/
def sampleFile : UploadedFile := ⟨"doc.pdf", 1000, "application/pdf"⟩

/-- A request environment: key configured, valid file, conforming model
reply. -/
def sampleEnv : RequestEnv :=
  ⟨true, some sampleFile, .ok sampleDoc, "2026-02-03T04:05:06.000Z"⟩

/-- A request environment whose model reply conforms but has a too-short
extracted text. -/
def sampleEnvShort : RequestEnv :=
  ⟨true, some sampleFile, .ok sampleDocShort, "2026-02-03T04:05:06.000Z"⟩

/-- A request environment whose model reply does not conform to the
schema. -/
def sampleEnvBad : RequestEnv :=
  ⟨true, some sampleFile, .ok sampleDocBad, "2026-02-03T04:05:06.000Z"⟩

/-- A request environment with the API key not configured and no file. -/
def sampleEnvNoKey : RequestEnv :=
  ⟨false, none, .error .nonError, "2026-02-03T04:05:06.000Z"⟩

/-- An uploaded file with a non-PDF MIME type. -/
def sampleWrongMimeFile : UploadedFile := ⟨"doc.pdf", 1000, "text/plain"⟩

/-- A request environment carrying the wrong-MIME file. -/
def sampleEnvWrongMime : RequestEnv :=
  ⟨true, some sampleWrongMimeFile, .error .nonError,
    "2026-02-03T04:05:06.000Z"⟩

/-- The `data` field of a response body (`Json.null` when absent). -/
def dataOf (r : HttpResponse) : Json := (r.body.getKey "data").getD .null

/-- The `metadata` field of a JSON value (`Json.null` when absent). -/
def mdOf (j : Json) : Json := (j.getKey "metadata").getD .null

example : documentParserConforms sampleDoc = true := by decide
example : documentParserConforms sampleDocBad = false := by decide
example : (POST sampleEnv).response.status = 200 := by decide
example : (POST sampleEnv).modelCalls = 1 := by decide
example : (POST sampleEnvShort).response.status = 422 := by decide
example : (POST sampleEnvBad).response.status = 422 := by decide
example : (POST sampleEnvNoKey).response.status = 500 := by decide

/-! ### Association-list lemmas -/

theorem lookupKey_setKey_self (l : List (String × Json)) (k : String)
    (v : Json) : lookupKey (setKey l k v) k = some v := by
  induction l with
  | nil => simp [setKey, lookupKey]
  | cons p rest ih =>
      obtain ⟨k', v'⟩ := p
      by_cases h : k' = k
      · simp [setKey, lookupKey, h]
      · simp [setKey, lookupKey, h, ih]

theorem lookupKey_setKey_ne (l : List (String × Json)) (k₁ k₂ : String)
    (v : Json) (h : ¬ k₂ = k₁) :
    lookupKey (setKey l k₁ v) k₂ = lookupKey l k₂ := by
  have h' : ¬ k₁ = k₂ := fun hh => h hh.symm
  induction l with
  | nil =>
      simp [setKey, lookupKey, h']
  | cons p rest ih =>
      obtain ⟨k', v'⟩ := p
      by_cases h1 : k' = k₁
      · subst h1
        simp [setKey, lookupKey, h']
      · simp only [setKey, if_neg h1, lookupKey]
        by_cases h2 : k' = k₂
        · simp [h2]
        · simp [h2, ih]

/-! ### Facts about the embedded route functions -/

theorem generateObject_ok (r : Except Thrown Json) (obj : Json)
    (h : generateObject r = .ok obj) :
    r = .ok obj ∧ documentParserConforms obj = true := by
  cases r with
  | error e => simp [generateObject] at h
  | ok j =>
      by_cases hc : documentParserConforms j = true
      · simp [generateObject, hc] at h
        exact ⟨by rw [h], by rw [← h]; exact hc⟩
      · simp [generateObject, hc] at h

theorem handleCaught_status_ne (e : Thrown) :
    (handleCaught e).status ≠ 200 := by
  cases e with
  | nonError => simp [handleCaught, createErrorResponse]
  | jsError n m =>
      simp only [handleCaught]
      split_ifs <;> simp [createErrorResponse]

/-- Inversion of the success path: a 200 response can only come out of the
final `createSuccessResponse`, with the API key configured, a validated
file, a conforming model reply and a long-enough extracted text. -/
theorem post_status_200 (env : RequestEnv)
    (h : (POST env).response.status = 200) :
    env.apiKeyConfigured = true ∧
    ∃ f obj, env.file = some f ∧ (validateFile f).isValid = true ∧
      env.modelReply = .ok obj ∧ documentParserConforms obj = true ∧
      ¬ (extractedTextOf (enhance obj f.name f.size env.now)).length < 10 ∧
    POST env =
        ⟨createSuccessResponse (enhance obj f.name f.size env.now), 1⟩ := by
  obtain ⟨key, ofile, reply, now⟩ := env
  cases key with
  | false => simp [POST, createErrorResponse] at h
  | true =>
    cases ofile with
    | none => simp [POST, createErrorResponse] at h
    | some f =>
      cases hv : (validateFile f).isValid with
      | false => simp [POST, hv, createErrorResponse] at h
      | true =>
        cases hg : generateObject reply with
        | error e =>
            simp [POST, hv, hg] at h
            exact absurd h (handleCaught_status_ne e)
        | ok obj =>
            obtain ⟨hr, hc⟩ := generateObject_ok reply obj hg
            by_cases hlen :
                (extractedTextOf (enhance obj f.name f.size now)).length < 10
            · simp [POST, hv, hg, hlen, createErrorResponse] at h
            · refine ⟨rfl, f, obj, rfl, hv, hr, hc, hlen, ?_⟩
              simp [POST, hv, hg, hlen]

theorem Json_isObj_exists (v : Json) (h : v.isObj = true) :
    ∃ m, v = .obj m := by
  cases v <;> simp [Json.isObj] at h ⊢

theorem fieldStr_some_str (s : String) : fieldStr (some (.str s)) = true :=
  rfl

theorem fieldNum_some_num (q : ℚ) : fieldNum (some (.num q)) = true := rfl

theorem fieldObj_some (p : Json → Bool) (v : Json) :
    fieldObj p (some v) = p v := rfl

/-- Overriding `filename`, `fileSize` and `extractedAt` with values of their
declared types keeps a metadata object conforming. -/
theorem conformsMetadata_setKeys (m : List (String × Json))
    (h : conformsMetadata (.obj m) = true) (n now : String) (q : ℚ) :
    conformsMetadata (.obj (setKey (setKey (setKey m "filename" (.str n))
      "fileSize" (.num q)) "extractedAt" (.str now))) = true := by
  simp only [conformsMetadata, Json.getKey, Json.isObj, Bool.and_eq_true,
    and_assoc] at h
  obtain ⟨-, -, -, -, hpc, hlang, htitle, hauth, hsubj, hkw, hcd, hlm, hpv,
    hprod, hwc, hcc, hhi, hhc, hht, hhf, hisc, htq, hec⟩ := h
  simp [conformsMetadata, Json.getKey, Json.isObj, Bool.and_eq_true,
    lookupKey_setKey_self, lookupKey_setKey_ne, fieldStr_some_str,
    fieldNum_some_num, hpc, hlang, htitle, hauth, hsubj, hkw, hcd, hlm, hpv,
    hprod, hwc, hcc, hhi, hhc, hht, hhf, hisc, htq, hec]

/-- The enhancement step keeps the model object conforming to
`documentParserSchema`. -/
theorem documentParserConforms_enhance (obj : Json)
    (h : documentParserConforms obj = true) (n : String) (s : ℕ)
    (now : String) :
    documentParserConforms (enhance obj n s now) = true := by
  obtain ⟨fields, rfl⟩ := Json_isObj_exists obj
    (by simp only [documentParserConforms, Bool.and_eq_true, and_assoc] at h
        exact h.1)
  simp only [documentParserConforms, Json.getKey, Json.isObj,
    Bool.and_eq_true, and_assoc] at h
  obtain ⟨-, het, hst, hfm, hmd⟩ := h
  generalize hmdl : lookupKey fields "metadata" = mdv at hmd
  cases mdv with
  | none => simp [fieldObj] at hmd
  | some v =>
      simp only [fieldObj] at hmd
      obtain ⟨m, rfl⟩ := Json_isObj_exists v
        (by simp only [conformsMetadata, Bool.and_eq_true, and_assoc] at hmd
            exact hmd.1)
      simp [enhance, hmdl, documentParserConforms, Json.getKey, Json.isObj,
        Bool.and_eq_true, lookupKey_setKey_self, lookupKey_setKey_ne,
        fieldObj_some, het, hst, hfm,
        conformsMetadata_setKeys m hmd n now (s : ℚ)]

/-- The enhancement step does not touch the extracted text. -/
theorem extractedTextOf_enhance (obj : Json) (n : String) (s : ℕ)
    (now : String) :
    extractedTextOf (enhance obj n s now) = extractedTextOf obj := by
  cases obj with
  | obj fields =>
      simp [extractedTextOf, enhance, Json.getKey, lookupKey_setKey_ne]
  | null => rfl
  | bool b => rfl
  | num q => rfl
  | str s => rfl
  | arr xs => rfl

/-- The enhancement step does not touch top-level keys other than
`metadata`. -/
theorem enhance_getKey_ne (fields : List (String × Json)) (n : String)
    (s : ℕ) (now : String) (k : String) (hk : ¬ k = "metadata") :
    (enhance (.obj fields) n s now).getKey k =
      (Json.obj fields).getKey k := by
  simp [enhance, Json.getKey, lookupKey_setKey_ne _ _ _ _ hk]

/-- The metadata object the enhancement step produces. -/
theorem enhance_getKey_metadata (fields m : List (String × Json))
    (hm : lookupKey fields "metadata" = some (.obj m)) (n : String) (s : ℕ)
    (now : String) :
    (enhance (.obj fields) n s now).getKey "metadata" =
      some (.obj (setKey (setKey (setKey m "filename" (.str n))
        "fileSize" (.num (s : ℚ))) "extractedAt" (.str now))) := by
  simp [enhance, hm, Json.getKey, lookupKey_setKey_self]

/-! ### The response invariant -/

/-- The invariant every response of the route satisfies: `success` is
`true` exactly on status 200; a success response carries a `data` field
and no `error` field; a failure response carries a non-empty `error`
string and a non-200 status. -/
def respOk (r : HttpResponse) : Prop :=
  (r.body.getKey "success" = some (.bool true) ↔ r.status = 200) ∧
  (r.body.getKey "success" = some (.bool true) →
    (∃ d, r.body.getKey "data" = some d) ∧ r.body.getKey "error" = none) ∧
  (r.body.getKey "success" = some (.bool false) →
    ∃ m, r.body.getKey "error" = some (.str m) ∧ m ≠ "" ∧ r.status ≠ 200)

theorem respOk_error (m : String) (s : ℕ) (hm : m ≠ "") (hs : s ≠ 200) :
    respOk (createErrorResponse m s) := by
  refine ⟨?_, ?_, ?_⟩
  · constructor
    · intro hh
      simp [createErrorResponse, Json.getKey, lookupKey] at hh
    · intro hh
      exact absurd hh hs
  · intro hh
    simp [createErrorResponse, Json.getKey, lookupKey] at hh
  · intro _
    exact ⟨m, by simp [createErrorResponse, Json.getKey, lookupKey], hm, hs⟩

theorem respOk_success (d : Json) : respOk (createSuccessResponse d) := by
  refine ⟨?_, ?_, ?_⟩
  · simp [createSuccessResponse, Json.getKey, lookupKey]
  · intro _
    refine ⟨⟨d, ?_⟩, ?_⟩ <;> simp [createSuccessResponse, Json.getKey, lookupKey]
  · intro hh
    simp [createSuccessResponse, Json.getKey, lookupKey] at hh

theorem processing_failed_ne_empty (m : String) :
    ("Processing failed: " ++ m) ≠ "" := by
  intro h
  have := congrArg String.length h
  simp [String.length_append] at this
  exact absurd this.1 (by decide)

theorem respOk_handleCaught (e : Thrown) : respOk (handleCaught e) := by
  cases e with
  | nonError => exact respOk_error _ _ (by decide) (by decide)
  | jsError n m =>
      simp only [handleCaught]
      split_ifs
      · exact respOk_error _ _ (by decide) (by decide)
      · exact respOk_error _ _ (by decide) (by decide)
      · exact respOk_error _ _ (by decide) (by decide)
      · exact respOk_error _ _ (by decide) (by decide)
      · exact respOk_error _ _ (by decide) (by decide)
      · exact respOk_error _ _ (processing_failed_ne_empty m) (by decide)

/-- Whatever `validateFile` reports, the message handed to
`createErrorResponse` on the invalid-file path is non-empty. -/
theorem validateFile_message_ne_empty (f : UploadedFile) :
    (validateFile f).error.getD "Unknown validation error" ≠ "" := by
  unfold validateFile
  split_ifs <;> simp

theorem respOk_post (env : RequestEnv) : respOk (POST env).response := by
  obtain ⟨key, ofile, reply, now⟩ := env
  cases key with
  | false => exact respOk_error _ _ (by decide) (by decide)
  | true =>
    cases ofile with
    | none => exact respOk_error _ _ (by decide) (by decide)
    | some f =>
      cases hv : (validateFile f).isValid with
      | false =>
          simp only [POST, hv]
          simp only [Bool.false_eq_true, if_false, if_true]
          exact respOk_error _ _ (validateFile_message_ne_empty f) (by decide)
      | true =>
        cases hg : generateObject reply with
        | error e =>
            simp only [POST, hv, hg]
            simpa using respOk_handleCaught e
        | ok obj =>
            by_cases hlen :
                (extractedTextOf (enhance obj f.name f.size now)).length < 10
            · simp only [POST, hv, hg]
              simp only [hlen, if_true]
              simpa using respOk_error
                "Could not extract meaningful text from the PDF. The document may be empty, corrupted, or contain only images."
                422 (by decide) (by decide)
            · simp only [POST, hv, hg]
              simp only [hlen, if_false]
              simpa using respOk_success (enhance obj f.name f.size now)

theorem dataOf_success (d : Json) : dataOf (createSuccessResponse d) = d := by
  simp [dataOf, createSuccessResponse, Json.getKey, lookupKey]

/-- The keys of a JSON object, in order. -/
def Json.keys : Json → List String
  | .obj fields => fields.map Prod.fst
  | _ => []

/-- Unpacking the quality constraints from schema conformance. -/
theorem conforms_metadata_facts (d : Json)
    (h : documentParserConforms d = true) :
    (∃ c : ℚ, (mdOf d).getKey "extractionConfidence" = some (.num c) ∧
      0 ≤ c ∧ c ≤ 1) ∧
    (∃ q, (mdOf d).getKey "textQuality" = some (.str q) ∧
      (q = "excellent" ∨ q = "good" ∨ q = "fair" ∨ q = "poor")) := by
  simp only [documentParserConforms, Bool.and_eq_true, and_assoc] at h
  obtain ⟨-, -, -, -, hmd⟩ := h
  generalize hmdl : Json.getKey d "metadata" = mdv at hmd
  cases mdv with
  | none => simp [fieldObj] at hmd
  | some v =>
      simp only [fieldObj] at hmd
      have hmdOf : mdOf d = v := by simp [mdOf, hmdl]
      simp only [conformsMetadata, Bool.and_eq_true, and_assoc] at hmd
      obtain ⟨-, -, -, -, -, -, -, -, -, -, -, -, -, -, -, -, -, -, -, -,
        -, htq, hec⟩ := hmd
      rw [hmdOf]
      constructor
      · generalize hcl : Json.getKey v "extractionConfidence" = cv at hec
        cases cv with
        | none => simp [fieldNumInRange] at hec
        | some c =>
            cases c with
            | num x =>
                simp only [fieldNumInRange, Bool.and_eq_true,
                  decide_eq_true_eq] at hec
                exact ⟨x, rfl, hec.1, hec.2⟩
            | null => simp [fieldNumInRange] at hec
            | bool b => simp [fieldNumInRange] at hec
            | str s => simp [fieldNumInRange] at hec
            | arr xs => simp [fieldNumInRange] at hec
            | obj fs => simp [fieldNumInRange] at hec
      · generalize hql : Json.getKey v "textQuality" = qv at htq
        cases qv with
        | none => simp [fieldEnum] at htq
        | some q =>
            cases q with
            | str s =>
                simp only [fieldEnum] at htq
                rw [List.contains_eq_any_beq] at htq
                simp only [List.any_cons, List.any_nil, Bool.or_eq_true,
                  Bool.or_false, beq_iff_eq] at htq
                exact ⟨s, rfl, by tauto⟩
            | null => simp [fieldEnum] at htq
            | bool b => simp [fieldEnum] at htq
            | num x => simp [fieldEnum] at htq
            | arr xs => simp [fieldEnum] at htq
            | obj fs => simp [fieldEnum] at htq

/-! ### The claims -/

/-- Claim C1 (counterexample): at a concrete accepted PDF input — the API
key configured, the uploaded file valid — the `POST` handler issues exactly
one call to the external model endpoint, not three. -/
theorem c1_counterexample :
    sampleEnv.apiKeyConfigured = true ∧
    sampleEnv.file = some sampleFile ∧
    (validateFile sampleFile).isValid = true ∧
    (POST sampleEnv).modelCalls = 1 ∧
    ¬ (POST sampleEnv).modelCalls = 3 :=
  ⟨rfl, rfl, by decide, by decide, by decide⟩

/-- Claim C1 (amended): for every accepted PDF input — API key configured,
file present and passing validation — the `POST` handler issues exactly one
call to the external model endpoint and never re-issues it; there is no
retry loop. -/
theorem c1_single_model_call (env : RequestEnv) (f : UploadedFile)
    (hkey : env.apiKeyConfigured = true) (hf : env.file = some f)
    (hv : (validateFile f).isValid = true) :
    (POST env).modelCalls = 1 := by
  obtain ⟨key, ofile, reply, now⟩ := env
  subst hkey
  subst hf
  cases hg : generateObject reply with
  | error e => simp [POST, hv, hg]
  | ok obj =>
      by_cases hlen :
          (extractedTextOf (enhance obj f.name f.size now)).length < 10
      · simp [POST, hv, hg, hlen]
      · simp [POST, hv, hg, hlen]

/-- Claim C1 witness: the amended single-call property at the concrete
accepted input. -/
theorem c1_single_model_call_witness :
    sampleEnv.apiKeyConfigured = true ∧
    sampleEnv.file = some sampleFile ∧
    (validateFile sampleFile).isValid = true ∧
    (POST sampleEnv).modelCalls = 1 :=
  ⟨rfl, rfl, by decide,
    c1_single_model_call sampleEnv sampleFile rfl rfl (by decide)⟩

/-- Claim C2: every invocation of `POST` that returns a success (status
200) response carries a `data` field conforming to
`documentParserSchema`. -/
theorem c2_success_data_conforms (env : RequestEnv)
    (h : (POST env).response.status = 200) :
    ∃ d, (POST env).response.body.getKey "data" = some d ∧
      documentParserConforms d = true := by
  obtain ⟨-, f, obj, -, -, -, hc, -, hpost⟩ := post_status_200 env h
  refine ⟨enhance obj f.name f.size env.now, ?_, ?_⟩
  · rw [hpost]
    simp [createSuccessResponse, Json.getKey, lookupKey]
  · exact documentParserConforms_enhance obj hc f.name f.size env.now

/-- Claim C2 witness: the success-conformance property at the concrete
accepted input. -/
theorem c2_success_data_conforms_witness :
    (POST sampleEnv).response.status = 200 ∧
    ∃ d, (POST sampleEnv).response.body.getKey "data" = some d ∧
      documentParserConforms d = true :=
  ⟨by decide, c2_success_data_conforms sampleEnv (by decide)⟩

/-- Claim C3 (evaluation at the failing input): an accepted PDF is answered
with a success response whose body holds only `success` and `data`, whose
`data` holds only the four extraction fields of `documentParserSchema`, and
which contains no translation of the extracted text (no `translatedText`
field exists anywhere in the result); the program performs extraction
only. -/
theorem c3_no_translation :
    (POST sampleEnv).response.status = 200 ∧
    Json.keys (POST sampleEnv).response.body = ["success", "data"] ∧
    Json.keys (dataOf (POST sampleEnv).response) =
      ["extractedText", "structure", "formatting", "metadata"] ∧
    (dataOf (POST sampleEnv).response).getKey "translatedText" = none :=
  ⟨by decide, by decide, by decide, rfl⟩

/-- Claim C4 (counterexample): a model reply that fails schema validation
only in the `extractionConfidence` range — one field away from conforming —
is answered by an immediate 422 error response after the single model call;
no repair into a conforming value is attempted. -/
theorem c4_counterexample :
    documentParserConforms sampleDocBad = false ∧
    (POST sampleEnvBad).response.status = 422 ∧
    (POST sampleEnvBad).response.body.getKey "success" =
      some (.bool false) ∧
    (POST sampleEnvBad).modelCalls = 1 :=
  ⟨by decide, by decide, rfl, by decide⟩

/-- Claim C4 (amended): when the model's response does not conform to
`documentParserSchema`, `POST` returns an error response with status 422
directly; no repair is attempted — the failed call remains the only call to
the model endpoint. -/
theorem c4_nonconforming_errors (env : RequestEnv) (f : UploadedFile)
    (j : Json) (hkey : env.apiKeyConfigured = true) (hf : env.file = some f)
    (hv : (validateFile f).isValid = true) (hr : env.modelReply = .ok j)
    (hnc : documentParserConforms j = false) :
    (POST env).response.status = 422 ∧
    (POST env).response.body.getKey "success" = some (.bool false) ∧
    (POST env).modelCalls = 1 := by
  obtain ⟨key, ofile, reply, now⟩ := env
  subst hkey
  subst hf
  subst hr
  have hg : generateObject (Except.ok j) =
      .error (.jsError "AI_NoObjectGeneratedError"
        "response did not match schema") := by
    simp [generateObject, hnc]
  simp [POST, hv, hg, handleCaught, createErrorResponse, Json.getKey,
    lookupKey]

/-- Claim C4 witness: the amended no-repair property at the concrete
nonconforming reply. -/
theorem c4_nonconforming_errors_witness :
    documentParserConforms sampleDocBad = false ∧
    (POST sampleEnvBad).response.status = 422 ∧
    (POST sampleEnvBad).modelCalls = 1 :=
  have h := c4_nonconforming_errors sampleEnvBad sampleFile sampleDocBad
    rfl rfl (by decide) rfl (by decide)
  ⟨by decide, h.1, h.2.2⟩

/-- Claim C5: in every success response of `POST`, the `extractedText`,
`structure` and `formatting` fields (indeed every top-level field other
than `metadata`) are exactly the values returned by the model; the
enhancement step changes only the metadata object, setting `filename` to
the uploaded file's name, `fileSize` to its size and `extractedAt` to the
extraction timestamp, and keeping every other metadata field from the
model output. -/
theorem c5_enhancement_frame (env : RequestEnv) (f : UploadedFile)
    (obj : Json) (hf : env.file = some f) (hr : env.modelReply = .ok obj)
    (h : (POST env).response.status = 200) :
    (∀ k, ¬ k = "metadata" →
      (dataOf (POST env).response).getKey k = obj.getKey k) ∧
    (dataOf (POST env).response).getKey "extractedText" =
      obj.getKey "extractedText" ∧
    (dataOf (POST env).response).getKey "structure" =
      obj.getKey "structure" ∧
    (dataOf (POST env).response).getKey "formatting" =
      obj.getKey "formatting" ∧
    (mdOf (dataOf (POST env).response)).getKey "filename" =
      some (.str f.name) ∧
    (mdOf (dataOf (POST env).response)).getKey "fileSize" =
      some (.num (f.size : ℚ)) ∧
    (mdOf (dataOf (POST env).response)).getKey "extractedAt" =
      some (.str env.now) ∧
    (∀ k, ¬ k = "filename" → ¬ k = "fileSize" → ¬ k = "extractedAt" →
      (mdOf (dataOf (POST env).response)).getKey k = (mdOf obj).getKey k) := by
  obtain ⟨-, f', obj', hf', hv, hr', hc, hlen, hpost⟩ := post_status_200 env h
  have hff : f' = f := by
    rw [hf] at hf'
    exact (Option.some.inj hf').symm
  have hoo : obj' = obj := by
    rw [hr] at hr'
    injection hr' with hh
    exact hh.symm
  rw [hff, hoo] at hpost
  rw [hoo] at hc
  rw [hpost, dataOf_success]
  obtain ⟨fields, rfl⟩ := Json_isObj_exists obj
    (by simp only [documentParserConforms, Bool.and_eq_true, and_assoc] at hc
        exact hc.1)
  have hmd : fieldObj conformsMetadata
      ((Json.obj fields).getKey "metadata") = true := by
    simp only [documentParserConforms, Bool.and_eq_true, and_assoc] at hc
    exact hc.2.2.2.2
  generalize hmdl : Json.getKey (.obj fields) "metadata" = mdv at hmd
  cases mdv with
  | none => simp [fieldObj] at hmd
  | some v =>
      simp only [fieldObj] at hmd
      obtain ⟨m, rfl⟩ := Json_isObj_exists v
        (by simp only [conformsMetadata, Bool.and_eq_true, and_assoc] at hmd
            exact hmd.1)
      have hmdl' : lookupKey fields "metadata" = some (.obj m) := by
        simpa [Json.getKey] using hmdl
      have hmde := enhance_getKey_metadata fields m hmdl' f.name f.size
        env.now
      refine ⟨fun k hk => enhance_getKey_ne fields f.name f.size env.now k hk,
        enhance_getKey_ne _ _ _ _ _ (by decide),
        enhance_getKey_ne _ _ _ _ _ (by decide),
        enhance_getKey_ne _ _ _ _ _ (by decide), ?_, ?_, ?_, ?_⟩
      · rw [mdOf, hmde]
        simp [Json.getKey, lookupKey_setKey_self, lookupKey_setKey_ne]
      · rw [mdOf, hmde]
        simp [Json.getKey, lookupKey_setKey_self, lookupKey_setKey_ne]
      · rw [mdOf, hmde]
        simp [Json.getKey, lookupKey_setKey_self, lookupKey_setKey_ne]
      · intro k hk1 hk2 hk3
        rw [mdOf, hmde]
        simp only [Option.getD_some, Json.getKey, mdOf, hmdl']
        rw [lookupKey_setKey_ne _ _ _ _ hk3, lookupKey_setKey_ne _ _ _ _ hk2,
          lookupKey_setKey_ne _ _ _ _ hk1]

/-- Claim C5 witness: the frame property at the concrete accepted input,
with the untouched-field clause instantiated at the metadata key
`language`. -/
theorem c5_enhancement_frame_witness :
    sampleEnv.file = some sampleFile ∧
    sampleEnv.modelReply = .ok sampleDoc ∧
    (POST sampleEnv).response.status = 200 ∧
    (dataOf (POST sampleEnv).response).getKey "extractedText" =
      sampleDoc.getKey "extractedText" ∧
    (mdOf (dataOf (POST sampleEnv).response)).getKey "filename" =
      some (.str sampleFile.name) ∧
    (mdOf (dataOf (POST sampleEnv).response)).getKey "extractedAt" =
      some (.str sampleEnv.now) ∧
    (mdOf (dataOf (POST sampleEnv).response)).getKey "language" =
      (mdOf sampleDoc).getKey "language" :=
  have h := c5_enhancement_frame sampleEnv sampleFile sampleDoc rfl rfl
    (by decide)
  ⟨rfl, rfl, by decide, h.2.1, h.2.2.2.2.1, h.2.2.2.2.2.2.1,
    h.2.2.2.2.2.2.2 "language" (by decide) (by decide) (by decide)⟩

/-- Claim C6: in every success response of `POST` the metadata's
`extractionConfidence` lies in the closed interval [0,1] and `textQuality`
is one of `excellent`, `good`, `fair`, `poor`. -/
theorem c6_quality_range (env : RequestEnv)
    (h : (POST env).response.status = 200) :
    (∃ c : ℚ, (mdOf (dataOf (POST env).response)).getKey
        "extractionConfidence" = some (.num c) ∧ 0 ≤ c ∧ c ≤ 1) ∧
    (∃ q, (mdOf (dataOf (POST env).response)).getKey "textQuality" =
        some (.str q) ∧
      (q = "excellent" ∨ q = "good" ∨ q = "fair" ∨ q = "poor")) := by
  obtain ⟨-, f, obj, -, -, -, hc, -, hpost⟩ := post_status_200 env h
  rw [hpost, dataOf_success]
  exact conforms_metadata_facts _
    (documentParserConforms_enhance obj hc f.name f.size env.now)

/-- Claim C6 witness: the quality-range property at the concrete accepted
input. -/
theorem c6_quality_range_witness :
    (POST sampleEnv).response.status = 200 ∧
    ((∃ c : ℚ, (mdOf (dataOf (POST sampleEnv).response)).getKey
        "extractionConfidence" = some (.num c) ∧ 0 ≤ c ∧ c ≤ 1) ∧
    (∃ q, (mdOf (dataOf (POST sampleEnv).response)).getKey "textQuality" =
        some (.str q) ∧
      (q = "excellent" ∨ q = "good" ∨ q = "fair" ∨ q = "poor"))) :=
  ⟨by decide, c6_quality_range sampleEnv (by decide)⟩

/-- Claim C7 (counterexample): a request with no uploaded file but with the
API key not configured is answered with status 500, not 400 — the claim's
unconditional 400 fails, because the API-key guard precedes the upload
validation. -/
theorem c7_counterexample :
    sampleEnvNoKey.file = none ∧
    (POST sampleEnvNoKey).response.status = 500 ∧
    ¬ (POST sampleEnvNoKey).response.status = 400 :=
  ⟨rfl, by decide, by decide⟩

/-- Claim C7 (amended): when the API key is configured, every request whose
file is absent, or oversized, or of a non-PDF MIME type, or without a
lowercased `.pdf` extension, is answered with status 400 and no call to the
external model endpoint is made. -/
theorem c7_validation_guard (env : RequestEnv)
    (hkey : env.apiKeyConfigured = true)
    (hbad : env.file = none ∨ ∃ f, env.file = some f ∧
      (MAX_FILE_SIZE < f.size ∨ ¬ f.type = "application/pdf" ∨
        strEndsWith (lowerString f.name) ".pdf" = false)) :
    (POST env).response.status = 400 ∧ (POST env).modelCalls = 0 := by
  obtain ⟨key, ofile, reply, now⟩ := env
  subst hkey
  cases hbad with
  | inl hnone =>
      subst hnone
      simp [POST, createErrorResponse]
  | inr hex =>
      obtain ⟨f, hf, hcond⟩ := hex
      subst hf
      have hv : (validateFile f).isValid = false := by
        by_cases h1 : f.name.length < 1
        · simp [validateFile, h1]
        · by_cases h2 : MAX_FILE_SIZE < f.size
          · simp [validateFile, h1, h2]
          · rcases hcond with hsize | htype | hext
            · exact absurd hsize h2
            · have hmem : f.type ∉ ALLOWED_MIME_TYPES := by
                simp [ALLOWED_MIME_TYPES, htype]
              simp [validateFile, h1, h2, hmem]
            · by_cases h3 : f.type ∈ ALLOWED_MIME_TYPES
              · simp [validateFile, h1, h2, h3,
                  SUPPORTED_FILE_EXTENSIONS, hext]
              · simp [validateFile, h1, h2, h3]
      simp [POST, hv, createErrorResponse]

/-- Claim C7 witness: the amended guard property at a concrete request
carrying a file with a non-PDF MIME type. -/
theorem c7_validation_guard_witness :
    sampleEnvWrongMime.apiKeyConfigured = true ∧
    (POST sampleEnvWrongMime).response.status = 400 ∧
    (POST sampleEnvWrongMime).modelCalls = 0 :=
  have h := c7_validation_guard sampleEnvWrongMime rfl
    (Or.inr ⟨sampleWrongMimeFile, rfl, Or.inr (Or.inl (by decide))⟩)
  ⟨rfl, h.1, h.2⟩

/-- Claim C8: every response of the document-parser route — all `POST`
outcomes and the `GET`, `PUT`, `DELETE` handlers — satisfies the response
invariant: `success` is `true` exactly on status 200, a success response
carries a `data` field and no `error` field, and a failure response carries
a non-empty error string and a non-200 status. -/
theorem c8_response_invariant :
    (∀ env, respOk (POST env).response) ∧ respOk GET ∧ respOk PUT ∧
      respOk DELETE :=
  ⟨respOk_post,
    respOk_error "Method not allowed. Use POST to upload a PDF file." 405
      (by decide) (by decide),
    respOk_error "Method not allowed. Use POST to upload a PDF file." 405
      (by decide) (by decide),
    respOk_error "Method not allowed. Use POST to upload a PDF file." 405
      (by decide) (by decide)⟩

/-- Claim C9: even an accepted PDF fails after extraction when the model's
output has an `extractedText` empty or shorter than 10 characters: `POST`
answers with an error response of status 422 (so no success response is
produced for that request). -/
theorem c9_short_text_422 (env : RequestEnv) (f : UploadedFile) (obj : Json)
    (hkey : env.apiKeyConfigured = true) (hf : env.file = some f)
    (hv : (validateFile f).isValid = true) (hr : env.modelReply = .ok obj)
    (hc : documentParserConforms obj = true)
    (hshort : (extractedTextOf obj).length < 10) :
    (POST env).response.status = 422 ∧
    (POST env).response.body.getKey "success" = some (.bool false) := by
  obtain ⟨key, ofile, reply, now⟩ := env
  subst hkey
  subst hf
  subst hr
  have hg : generateObject (Except.ok obj) = .ok obj := by
    simp [generateObject, hc]
  have hlen : (extractedTextOf (enhance obj f.name f.size now)).length < 10 := by
    rw [extractedTextOf_enhance]
    exact hshort
  simp [POST, hv, hg, hlen, createErrorResponse, Json.getKey, lookupKey]

/-- Claim C9 witness: the post-extraction failure at the concrete conforming
reply whose extracted text has 5 characters. -/
theorem c9_short_text_422_witness :
    documentParserConforms sampleDocShort = true ∧
    (extractedTextOf sampleDocShort).length < 10 ∧
    (POST sampleEnvShort).response.status = 422 ∧
    (POST sampleEnvShort).response.body.getKey "success" =
      some (.bool false) :=
  have h := c9_short_text_422 sampleEnvShort sampleFile sampleDocShort
    rfl rfl (by decide) rfl (by decide) (by decide)
  ⟨by decide, by decide, h.1, h.2⟩

end DDT
